import Mathlib

/-!
Verification of the AI-Funding retrieval pipeline.

Shallow embedding of the core pipeline of the repository:
- `src/app/rag_core.py` (scoring, keyword candidates, hybrid merge, retrieval
  filtering, LLM selection/enrichment post-processing),
- `src/langchain_config/scoring.py` (the second scoring variant),
- `src/app/app_streamlit.py` (the follow-up resolver) with `src/app/utils.py`,
- `src/mixedup_streamlit_app /rag_core.py` (field backfill) with its
  `utils.py` (found under `src/other/mixedup_streamlit_app /utils.py`).

Strings are modelled as `List Char` (`Str`).  Python string operations used by
the code (lower, strip, substring membership, regex `\w+` token scanning,
digit-run scanning, percent-decoding, `str.title`) are embedded for ASCII
data, which covers all data the claims touch.  Timestamps are modelled at day
granularity as `Int`, so `(deadline_date - now).days` is plain subtraction.
External date parsing (`dateutil`) is a parameter `parse : Str → Option Int`
(`None` = unparseable), matching `safe_parse_deadline`'s contract.  The float
weights 0.4/0.3/0.2/0.1/0.1 with `round(score * 100)` are modelled as the
exact integers 4/3/2/1/1 scaled by 10: every partial float sum is within
1e-8 of the corresponding multiple of 0.1, so Python's rounding agrees.
-/

namespace AIFunding

set_option maxRecDepth 20000
set_option maxHeartbeats 1000000

abbrev Str := List Char

/-- Conversion from a Lean string literal to the `List Char` model. -/
def str (s : String) : Str := s.data

/-- Python `str.lower()` (ASCII). -/
def lowerStr (s : Str) : Str := s.map Char.toLower

/-- Python whitespace class `\s` / `str.strip()` characters (ASCII). -/
def isWS (c : Char) : Bool :=
  c == ' ' || c == '\t' || c == '\n' || c == '\r' || c == '\x0b' || c == '\x0c'

/-- Python `str.strip()`: remove leading and trailing whitespace. -/
def stripStr (s : Str) : Str :=
  ((s.dropWhile isWS).reverse.dropWhile isWS).reverse

/-- Python `str.rstrip("/")`. -/
def rstripSlash (s : Str) : Str :=
  (s.reverse.dropWhile (fun c => c == '/')).reverse

/-- Regex `\w` word character (ASCII letters, digits, underscore). -/
def isWordChar (c : Char) : Bool := c.isAlphanum || c == '_'

/-- Is `p` a prefix of `s` (by character equality)? -/
def isPrefixL : Str → Str → Bool
  | [], _ => true
  | _ :: _, [] => false
  | a :: p, b :: s => a == b && isPrefixL p s

/-- Python substring membership `needle in hay`. -/
def isSubstr (needle : Str) : Str → Bool
  | [] => needle.isEmpty
  | c :: t => isPrefixL needle (c :: t) || isSubstr needle t

/-- Is `p` a suffix of `s`? -/
def isSuffixL (p s : Str) : Bool := isPrefixL p.reverse s.reverse

/-- Helper for maximal-run scanning: `acc` holds the current run reversed. -/
def runsByAux (p : Char → Bool) : Str → Str → List Str
  | [], acc => if acc.isEmpty then [] else [acc.reverse]
  | c :: t, acc =>
    if p c then runsByAux p t (c :: acc)
    else if acc.isEmpty then runsByAux p t []
    else acc.reverse :: runsByAux p t []

/-- Maximal runs of characters satisfying `p` (regex `findall` of `p+`). -/
def runsBy (p : Char → Bool) (s : Str) : List Str := runsByAux p s []

/-- Regex `re.findall(r"\w+", s)`. -/
def wordTokens (s : Str) : List Str := runsBy isWordChar s

/-- Regex `re.findall(r"\d+", s)`. -/
def digitRuns (s : Str) : List Str := runsBy Char.isDigit s

/-- Python `int` of a nonempty digit string. -/
def natOfDigits (s : Str) : Nat := s.foldl (fun n c => n * 10 + (c.toNat - 48)) 0

/-- Python `str.split()` (split on whitespace runs, dropping empties). -/
def splitWS (s : Str) : List Str := runsBy (fun c => !isWS c) s

/-- Python `s.split(sep)` for a single-character separator (keeps empties). -/
def splitChar (sep : Char) : Str → List Str
  | [] => [[]]
  | c :: t =>
    if c == sep then [] :: splitChar sep t
    else
      match splitChar sep t with
      | [] => [[c]]
      | seg :: rest => (c :: seg) :: rest

/-- Helper for `re.sub(r"\s+", " ", s)`: the flag says the previous character
was part of a whitespace run already replaced. -/
def collapseWSAux : Str → Bool → Str
  | [], _ => []
  | c :: t, inRun =>
    if isWS c then
      if inRun then collapseWSAux t true else ' ' :: collapseWSAux t true
    else c :: collapseWSAux t false

/-- Regex `re.sub(r"\s+", " ", s)`. -/
def collapseWS (s : Str) : Str := collapseWSAux s false

/-- Python `" ".join`. -/
def joinSpace (xs : List Str) : Str := List.intercalate [' '] xs

/-!
## Data model

A funding-program record.  Python passes these around as dicts / DataFrame
rows; the fields below are the union of the keys the embedded code reads.
A missing or `None` dict value is modelled as the empty string, which the
code treats identically everywhere it appears in the claims (`str(x or "")`,
`fmt`, `present`, truthiness tests).  The derived columns added by the
pipeline (`deadline_date`, `days_left`, `relevance_score`, `kw_score`) start
at their Python-absent defaults.
-/

structure Record where
  name : Str := []
  title : Str := []
  program : Str := []
  call : Str := []
  call_title : Str := []
  funding_title : Str := []
  display_name : Str := []
  description : Str := []
  eligibility : Str := []
  procedure : Str := []
  contact : Str := []
  amount : Str := []
  deadline : Str := []
  location : Str := []
  source : Str := []
  domain : Str := []
  url : Str := []
  deadline_date : Option Int := none
  days_left : Option Int := none
  relevance_score : Int := 0
  kw_score : Int := 0
deriving DecidableEq, Inhabited

/-- The string-valued record attributes (the dict keys used by backfill). -/
inductive Field
  | name | title | program | call | call_title | funding_title | display_name
  | description | eligibility | procedure | contact | amount | deadline
  | location | source | domain | url
deriving DecidableEq, Inhabited

/-- Dict read `item.get(key)` for the string-valued attributes. -/
def getF (r : Record) : Field → Str
  | .name => r.name
  | .title => r.title
  | .program => r.program
  | .call => r.call
  | .call_title => r.call_title
  | .funding_title => r.funding_title
  | .display_name => r.display_name
  | .description => r.description
  | .eligibility => r.eligibility
  | .procedure => r.procedure
  | .contact => r.contact
  | .amount => r.amount
  | .deadline => r.deadline
  | .location => r.location
  | .source => r.source
  | .domain => r.domain
  | .url => r.url

/-- Dict write `item[key] = v` for the string-valued attributes. -/
def setF (r : Record) (k : Field) (v : Str) : Record :=
  match k with
  | .name => { r with name := v }
  | .title => { r with title := v }
  | .program => { r with program := v }
  | .call => { r with call := v }
  | .call_title => { r with call_title := v }
  | .funding_title => { r with funding_title := v }
  | .display_name => { r with display_name := v }
  | .description => { r with description := v }
  | .eligibility => { r with eligibility := v }
  | .procedure => { r with procedure := v }
  | .contact => { r with contact := v }
  | .amount => { r with amount := v }
  | .deadline => { r with deadline := v }
  | .location => { r with location := v }
  | .source => { r with source := v }
  | .domain => { r with domain := v }
  | .url => { r with url := v }

/-!
## Relevance scoring — `src/app/rag_core.py`, `compute_relevance_score`

Lines 44-64.  Each factor is a separate definition so the claims can speak
about an individual factor triggering.  `now` is the day-granularity value of
`pd.Timestamp.now(tz="UTC")`.
-/

/-- Factor 1 (+0.4): `target_domain and target_domain.lower() in str(get("domain","")).lower()`. -/
def domainFactor (dom target_domain : Str) : Bool :=
  !target_domain.isEmpty && isSubstr (lowerStr target_domain) (lowerStr dom)

/-- `nums = re.findall(r"\d+", amount); amount_val = int(nums[-1]) if nums else 0`. -/
def amountValRag (amount : Str) : Nat :=
  match (digitRuns amount).getLast? with
  | some run => natOfDigits run
  | none => 0

/-- Factor 2 (+0.3): `funding_need and amount_val >= funding_need`. -/
def amountFactorRag (amount : Str) (funding_need : Nat) : Bool :=
  funding_need != 0 && decide (funding_need ≤ amountValRag amount)

/-- Factor 3 (+0.2): `isinstance(dd, Timestamp) and notnull(dd) and dd >= now`. -/
def deadlineFactorRag (dd : Option Int) (now : Int) : Bool :=
  match dd with
  | some d => decide (now ≤ d)
  | none => false

/-- Factor 4 (+0.1): some token of `re.findall(r"\w+", query.lower())` occurs
in the lowered description. -/
def keywordFactorRag (descr query : Str) : Bool :=
  (wordTokens (lowerStr query)).any (fun tok => isSubstr tok (lowerStr descr))

/-- Factor 5 (+0.1): `user_location and user_location.lower() in str(get("location","")).lower()`. -/
def locationFactorRag (loc user_location : Str) : Bool :=
  !user_location.isEmpty && isSubstr (lowerStr user_location) (lowerStr loc)

/-- `compute_relevance_score` of `src/app/rag_core.py` (result = `round(score*100)`,
modelled exactly as the triggered weights 40/30/20/10/10 summed). -/
def compute_relevance_score (row : Record) (query : Str) (funding_need : Nat)
    (target_domain user_location : Str) (now : Int) : Int :=
  let s1 : Int := if domainFactor row.domain target_domain then 4 else 0
  let s2 : Int := if amountFactorRag row.amount funding_need then 3 else 0
  let s3 : Int := if deadlineFactorRag row.deadline_date now then 2 else 0
  let s4 : Int := if keywordFactorRag row.description query then 1 else 0
  let s5 : Int := if locationFactorRag row.location user_location then 1 else 0
  (s1 + s2 + s3 + s4 + s5) * 10

/-!
## Relevance scoring — `src/langchain_config/scoring.py`, `compute_relevance_score`

Lines 11-38.  Differences from the rag_core variant: no truthiness guards on
`target_domain` / `user_location` (Python `"" in s` is `True`), the numeric
amount strips every non-digit (`re.sub(r"[^\d]", "", ...)`, raising on an
all-non-digit string, swallowed by the bare `except`), the deadline factor is
a substring test on the raw deadline text, and the query is split on
whitespace rather than `\w+`.
-/

/-- `int(re.sub(r"[^\d]", "", amount))`; `none` models the swallowed
`ValueError` on an empty digit string. -/
def amountValLC (amount : Str) : Option Nat :=
  let ds := amount.filter Char.isDigit
  if ds.isEmpty then none else some (natOfDigits ds)

/-- The amount factor of the scoring.py variant. -/
def amountFactorLC (amount : Str) (funding_need : Nat) : Bool :=
  match amountValLC amount with
  | some v => decide (funding_need ≤ v)
  | none => false

/-- `compute_relevance_score` of `src/langchain_config/scoring.py`. -/
def compute_relevance_score_lc (metadata : Record) (query : Str)
    (funding_need : Nat) (target_domain user_location : Str) : Int :=
  let s1 : Int := if isSubstr (lowerStr target_domain) (lowerStr metadata.domain) then 4 else 0
  let s2 : Int := if amountFactorLC metadata.amount funding_need then 3 else 0
  let s3 : Int :=
    if isSubstr (str "month") (lowerStr metadata.deadline)
        || isSubstr (str "2025") metadata.deadline then 2 else 0
  let s4 : Int :=
    if (splitWS query).any (fun w => isSubstr (lowerStr w) (lowerStr metadata.description))
    then 1 else 0
  let s5 : Int := if isSubstr (lowerStr user_location) (lowerStr metadata.location) then 1 else 0
  (s1 + s2 + s3 + s4 + s5) * 10

/-!
## Dedupe key and keyword candidates — `src/app/rag_core.py`

`_key_from_item` (lines 88-89), `keyword_candidates` (lines 69-86).
-/

/-- `_normalize_text(x) = str(x or "").lower()`. -/
def _normalize_text (x : Str) : Str := lowerStr x

/-- `_key_from_item`: `(item.get("url") or "").strip() or
_normalize_text(item.get("name") or item.get("title"))`. -/
def _key_from_item (it : Record) : Str :=
  let u := stripStr it.url
  if !u.isEmpty then u
  else _normalize_text (if !it.name.isEmpty then it.name else it.title)

/-- The fields concatenated into the keyword haystack. -/
def kcFieldsOf (r : Record) : List Str :=
  [r.name, r.title, r.program, r.call, r.description, r.domain, r.eligibility, r.location]

/-- `hay = " ".join(_normalize_text(r.get(f, "")) for f in fields)`. -/
def kcHay (r : Record) : Str := joinSpace (kcFieldsOf r |>.map _normalize_text)

/-- `score_row`: count of distinct query tokens occurring in the haystack,
plus 2 if any domain-preference token occurs.  `toks`/`dom_tok` are Python
sets; only the count of distinct members matters, so a deduplicated list is
an exact model. -/
def kwScoreRow (query dom_pref : Str) (r : Record) : Int :=
  let toks := (wordTokens (lowerStr query)).dedup
  let hay := kcHay r
  let base : Int := (toks.filter (fun t => isSubstr t hay)).length
  let domToks := if dom_pref.isEmpty then [] else (wordTokens (lowerStr dom_pref)).dedup
  if !domToks.isEmpty && domToks.any (fun d => isSubstr d hay) then base + 2 else base

/-- Descending comparison on `kw_score` for the candidate sort.  pandas
`sort_values(..., ascending=False)` uses an unspecified unstable sort; no
claim depends on the tie order, and we fix the stable descending sort. -/
def kwLE (a b : Record) : Bool := decide (b.kw_score ≤ a.kw_score)

/-- `keyword_candidates(df, query, dom_pref, top_n)`. -/
def keyword_candidates (df : List Record) (query dom_pref : Str) (top_n : Nat) :
    List Record :=
  if df.isEmpty || query.isEmpty then []
  else
    let scored := df.map (fun r => { r with kw_score := kwScoreRow query dom_pref r })
    ((scored.filter (fun r => 0 < r.kw_score)).mergeSort kwLE).take top_n

/-!
## Hybrid merge — `src/app/rag_core.py`, `hybrid_boost` (lines 91-116)

`parse` abstracts `safe_parse_deadline` composed with
`pd.to_datetime(..., errors="coerce", utc=True)` (day granularity); `now` is
`pd.Timestamp.now(tz="UTC")`.
-/

/-- The `seen` set of dedupe keys built from the vector candidates. -/
def seenKeys (sem : List Record) : List Str := sem.map _key_from_item

/-- The per-item mutation performed on an appended keyword candidate:
`item["deadline_date"]` is always assigned, `item["days_left"]` only when the
parse succeeded, then `item["relevance_score"]` is computed on the mutated
item. -/
def hybridAnnotate (parse : Str → Option Int) (now : Int) (query : Str)
    (need : Nat) (dom_pref user_loc : Str) (r : Record) : Record :=
  let dd := parse r.deadline
  let r1 := { r with
    deadline_date := dd,
    days_left := match dd with
      | some d => some (d - now)
      | none => r.days_left }
  { r1 with relevance_score := compute_relevance_score r1 query need dom_pref user_loc now }

/-- The loop's keep condition: dedupe key not already seen, and the parsed
deadline (when it parses) not strictly in the past. -/
def hybridKeep (parse : Str → Option Int) (now : Int) (seen : List Str)
    (r : Record) : Bool :=
  !(seen.contains (_key_from_item r)) &&
    match parse r.deadline with
    | some d => decide (0 ≤ d - now)
    | none => true

/-- The `additions` loop of `hybrid_boost`: skip seen keys, skip expired
parsed deadlines, annotate and append everything else, in order. -/
def hybridAdditions (parse : Str → Option Int) (now : Int) (query : Str)
    (need : Nat) (dom_pref user_loc : Str) (seen : List Str) :
    List Record → List Record
  | [] => []
  | r :: rs =>
    let rest := hybridAdditions parse now query need dom_pref user_loc seen rs
    if seen.contains (_key_from_item r) then rest
    else
      match parse r.deadline with
      | some d =>
        if d - now < 0 then rest
        else hybridAnnotate parse now query need dom_pref user_loc r :: rest
      | none => hybridAnnotate parse now query need dom_pref user_loc r :: rest

/-- Descending comparison on `relevance_score`:
`sorted(merged, key=lambda x: x.get("relevance_score", 0), reverse=True)` is
a stable sort placing higher scores first. -/
def scoreLE (a b : Record) : Bool := decide (b.relevance_score ≤ a.relevance_score)

/-- `hybrid_boost` from the keyword-candidate rows onward. -/
def hybrid_merge (parse : Str → Option Int) (now : Int) (sem kwrows : List Record)
    (query : Str) (need : Nat) (dom_pref user_loc : Str) (want : Nat) : List Record :=
  let additions := hybridAdditions parse now query need dom_pref user_loc (seenKeys sem) kwrows
  ((sem ++ additions).mergeSort scoreLE).take want

/-- `hybrid_boost(semantic_matches, df_full, query, ...)` (top_n = 50). -/
def hybrid_boost (parse : Str → Option Int) (now : Int) (sem df : List Record)
    (query : Str) (need : Nat) (dom_pref user_loc : Str) (want : Nat) : List Record :=
  hybrid_merge parse now sem (keyword_candidates df query dom_pref 50)
    query need dom_pref user_loc want

/-!
## Retrieval pipeline — `src/app/rag_core.py`, `query_funding_data` (lines 119-141)

Modelled from the Pinecone `matches` metadata list onward (embedding and index
query are external I/O).  The `"deadline" in df.columns` conditional
collapses: a metadata dict without the key is modelled as `deadline = ""`,
which parses to null and is retained, exactly as rows are when the column is
absent.
-/

/-- The sentinel values replaced by NaN before parsing:
`df["deadline"].replace(["", "deadline information not found"], np.nan)`. -/
def deadlineSentinel : Str := str "deadline information not found"

/-- Deadline normalization of one retrieved row: `deadline_date` from the
(sentinel-replaced) parse, `days_left = (deadline_date - now).dt.days`. -/
def annotateQueryRow (parse : Str → Option Int) (now : Int) (r : Record) : Record :=
  let cell := if r.deadline.isEmpty || r.deadline == deadlineSentinel
              then none else parse r.deadline
  { r with deadline_date := cell, days_left := cell.map (fun d => d - now) }

/-- The filter `df[(df["days_left"].isna()) | (df["days_left"] >= 0)]`. -/
def keepDeadline (r : Record) : Bool :=
  r.days_left.isNone || decide (0 ≤ r.days_left.getD 0)

/-- `query_funding_data` from the retrieved metadata list onward. -/
def query_funding_data (parse : Str → Option Int) (now : Int)
    (ms : List Record) (query loc : Str) (top_k need : Nat)
    (dom_pref : Str) : List Record :=
  if ms.isEmpty then []
  else
    let flt := (ms.map (annotateQueryRow parse now)).filter keepDeadline
    if flt.isEmpty then []
    else
      let scored := flt.map (fun r =>
        { r with relevance_score := compute_relevance_score r query need dom_pref loc now })
      (scored.mergeSort scoreLE).take top_k

/-!
## LLM selector — `src/app/rag_core.py`, `llm_select_top` (lines 171-201)

The generative call is abstracted as `Except Unit (List RawPick)`:
`.error` models a network error or a JSON parse error (the whole `try` body
throws), `.ok picks` models `json.loads(...)["picks"]` (a missing `picks`
key is `.ok []`).  A pick's `pid` is `int(p.get("id"))` — `none` when that
conversion raises (caught per pick and skipped); `why` is `p.get("why")`,
`none`/empty being Python-falsy.  The `reasons` dict is modelled as an
insertion-ordered association list with overwrite-in-place, the dict's exact
semantics.  The Python parameter `matches` is named `n` here by its length,
the only thing the validation reads.
-/

structure RawPick where
  pid : Option Int
  why : Option Str
deriving DecidableEq, Inhabited

/-- `d[k] = v` on an insertion-ordered dict. -/
def dictUpd {α : Type} (m : List (Nat × α)) (k : Nat) (v : α) : List (Nat × α) :=
  if m.any (fun p => p.1 == k) then
    m.map (fun p => if p.1 == k then (k, v) else p)
  else m ++ [(k, v)]

/-- One iteration of the validation loop over `picks`. -/
def pickStep (n : Nat) (acc : List Nat × List (Nat × Str)) (p : RawPick) :
    List Nat × List (Nat × Str) :=
  match p.pid with
  | none => acc
  | some v =>
    if 1 ≤ v ∧ v ≤ (n : Int) then
      let idN := v.toNat
      let reasons := match p.why with
        | some w => if w.isEmpty then acc.2 else dictUpd acc.2 idN (w.take 300)
        | none => acc.2
      (acc.1 ++ [idN], reasons)
    else acc

/-- The validated `(ids, reasons)` accumulated over all picks. -/
def collectPicks (n : Nat) (picks : List RawPick) : List Nat × List (Nat × Str) :=
  picks.foldl (pickStep n) ([], [])

/-- `list(range(1, min(wanted, len(matches)) + 1))`. -/
def selectFallback (n wanted : Nat) : List Nat := List.range' 1 (min wanted n)

/-- `llm_select_top` post-processing (`n = len(matches)`). -/
def llm_select_top (resp : Except Unit (List RawPick)) (n wanted : Nat) :
    List Nat × List (Nat × Str) :=
  match resp with
  | .error _ => (selectFallback n wanted, [])
  | .ok picks =>
    let c := collectPicks n picks
    let ids := c.1.take wanted
    if ids.isEmpty then (selectFallback n wanted, c.2) else (ids, c.2)

/-!
## LLM enricher — `src/app/rag_core.py`, `llm_enrich_picks` (lines 203-254)

Same abstraction of the generative call.  `eid` is `it.get("id")` when it is
an `int` (`isinstance` check), `none` otherwise; `brief` is `it.get("brief", "")`
stringified; `steps` is `it.get("next_steps")` with `none` for a missing or
null key.
-/

structure RawEnrichItem where
  eid : Option Int
  brief : Str := []
  steps : Option (List Str) := none
deriving DecidableEq, Inhabited

structure EnrichEntry where
  brief : Str
  next_steps : List Str
deriving DecidableEq, Inhabited

/-- One iteration of the `items` loop. -/
def enrichStep (chosen : List Nat) (out : List (Nat × EnrichEntry))
    (it : RawEnrichItem) : List (Nat × EnrichEntry) :=
  match it.eid with
  | none => out
  | some cid =>
    if chosen.any (fun c => (c : Int) == cid) then
      let entry : EnrichEntry :=
        { brief := (stripStr it.brief).take 600,
          next_steps := (((it.steps.getD []).map stripStr).filter
            (fun s => !s.isEmpty)).take 3 }
      dictUpd out cid.toNat entry
    else out

/-- `llm_enrich_picks` post-processing. -/
def llm_enrich_picks (resp : Except Unit (List RawEnrichItem))
    (chosen : List Nat) : List (Nat × EnrichEntry) :=
  match resp with
  | .error _ => chosen.map (fun cid => (cid, ⟨[], []⟩))
  | .ok items => items.foldl (enrichStep chosen) []

/-!
## Program-name normalization — `src/app/utils.py` lines 68-103 and
`src/other/mixedup_streamlit_app /utils.py` lines 160-198

`normalize_program_title` and `_fix_acronyms` are textually identical in both
files; only `fmt`'s sentinel phrase list differs (the mixedup variant adds
`"nan"`).  `unquote` and `str.title` are embedded for ASCII data (the only
data reaching them in the claims' inputs).
-/

/-- Hex digit value for percent-decoding. -/
def hexVal (c : Char) : Option Nat :=
  if c.isDigit then some (c.toNat - 48)
  else if 'a' ≤ c.toLower && c.toLower ≤ 'f' then some (c.toLower.toNat - 87)
  else none

/-- `urllib.parse.unquote` (ASCII percent-decoding). -/
def unquoteStr : Str → Str
  | [] => []
  | '%' :: a :: b :: t =>
    match hexVal a, hexVal b with
    | some x, some y => Char.ofNat (16 * x + y) :: unquoteStr t
    | _, _ => '%' :: unquoteStr (a :: b :: t)
  | c :: t => c :: unquoteStr t

/-- Helper for `str.title`: the flag records whether the previous character
was a letter. -/
def titleAux : Str → Bool → Str
  | [], _ => []
  | c :: t, prevAlpha =>
    if c.isAlpha then (if prevAlpha then c.toLower else c.toUpper) :: titleAux t true
    else c :: titleAux t false

/-- Python `str.title()` (ASCII). -/
def pyTitle (s : Str) : Str := titleAux s false

/-- Does the pattern match at the head of `s` with `\b` on both sides?
`prev` is the character just before `s` (none at the start of the text). -/
def wbMatchAt (pat : Str) (prev : Option Char) (s : Str) : Bool :=
  isPrefixL pat s &&
  (match prev with | some c => !isWordChar c | none => true) &&
  (match s.drop pat.length with | [] => true | c :: _ => !isWordChar c)

/-- Fuel-driven left-to-right scan for `re.sub(rf"\b{pat}\b", rep, s)` with a
literal, word-delimited pattern.  The fuel (initially `s.length`) dominates
the number of steps since every step consumes at least one character. -/
def replaceWBAux (pat rep : Str) : Nat → Option Char → Str → Str
  | 0, _, s => s
  | _ + 1, _, [] => []
  | fuel + 1, prev, c :: t =>
    if wbMatchAt pat prev (c :: t) then
      rep ++ replaceWBAux pat rep fuel pat.getLast? ((c :: t).drop pat.length)
    else c :: replaceWBAux pat rep fuel (some c) t

/-- `re.sub(rf"\b{pat}\b", rep, s)` for the acronym patterns. -/
def replaceWB (pat rep s : Str) : Str := replaceWBAux pat rep s.length none s

/-- `ACRONYMS = ("AI","R&D","EU","BMBF","EFRE","ERDF","SME","ML","KI")`. -/
def ACRONYMS : List Str :=
  [str "AI", str "R&D", str "EU", str "BMBF", str "EFRE", str "ERDF",
   str "SME", str "ML", str "KI"]

/-- `_fix_acronyms`: replace each title-cased acronym (`ac.title()`) by `ac`. -/
def fixAcronyms (s : Str) : Str :=
  ACRONYMS.foldl (fun acc ac => replaceWB (pyTitle ac) ac acc) s

/-- Character class of `re.fullmatch(r"[a-z0-9\-\._]+", s.lower())`. -/
def isSlugChar (c : Char) : Bool :=
  ('a' ≤ c && c ≤ 'z') || c.isDigit || c == '-' || c == '.' || c == '_'

/-- `re.sub(r"\.(html?|php)$", "", s, flags=re.I)`. -/
def stripExt (s : Str) : Str :=
  if isSuffixL (str ".html") (lowerStr s) then s.take (s.length - 5)
  else if isSuffixL (str ".htm") (lowerStr s) then s.take (s.length - 4)
  else if isSuffixL (str ".php") (lowerStr s) then s.take (s.length - 4)
  else s

/-- `normalize_program_title(candidate, url="")` — the `url` parameter is
unused in the source body and omitted. -/
def normalize_program_title (candidate : Str) : Str :=
  let s := stripStr candidate
  if s.isEmpty then []
  else if isSuffixL (str ".html") (lowerStr s) || isSuffixL (str ".htm") (lowerStr s)
      || isSuffixL (str ".php") (lowerStr s) || (lowerStr s).all isSlugChar then
    let s1 := stripExt s
    let s2 := s1.map (fun c => if c == '-' || c == '_' then ' ' else c)
    let s3 := unquoteStr s2
    let s4 := pyTitle (stripStr (collapseWS s3))
    fixAcronyms s4
  else s

/-- Sentinel phrases of `fmt` in `src/app/utils.py`. -/
def fmtPhrasesApp : List Str :=
  [str "information not found", str "not specified", str "n/a", str "na",
   str "none", str "null"]

/-- Sentinel phrases of `fmt` in the mixedup `utils.py` (adds `"nan"`). -/
def fmtPhrasesMix : List Str :=
  [str "information not found", str "not specified", str "n/a", str "na",
   str "none", str "null", str "nan"]

/-- `fmt(x, fallback)` parameterized by the phrase list.  The `None`/NaN
branches collapse under the empty-string model of a missing value. -/
def fmtWith (phrases : List Str) (x fallback : Str) : Str :=
  let s := stripStr x
  if s.isEmpty then fallback
  else if phrases.any (fun p => isSubstr p (lowerStr s)) then fallback
  else s

/-- `fmt` of `src/app/utils.py`. -/
def fmtApp (x fallback : Str) : Str := fmtWith fmtPhrasesApp x fallback

/-- `fmt` of the mixedup `utils.py`. -/
def fmtMix (x fallback : Str) : Str := fmtWith fmtPhrasesMix x fallback

/-- The candidate name fields of `program_name`, in order. -/
def nameCandidates (m : Record) : List Str :=
  [m.name, m.title, m.program, m.call, m.call_title, m.funding_title, m.display_name]

/-- `program_name(m)` parameterized by the `fmt` variant. -/
def programNameWith (fmtF : Str → Str → Str) (m : Record) : Str :=
  let url := stripStr m.url
  match ((nameCandidates m).map (fun c => fmtF c [])).find? (fun c => !c.isEmpty) with
  | some c => normalize_program_title c
  | none =>
    if !url.isEmpty then
      let slug := (splitChar '/' (rstripSlash url)).getLastD []
      let t := normalize_program_title slug
      if t.isEmpty then str "Unnamed" else t
    else str "Unnamed"

/-- `program_name` of `src/app/utils.py`. -/
def program_name (m : Record) : Str := programNameWith fmtApp m

/-- `program_name` of the mixedup `utils.py`. -/
def programNameMix (m : Record) : Str := programNameWith fmtMix m

/-!
## Follow-up resolver — `src/app/app_streamlit.py`, `find_followup_target`
(lines 96-119) and the `ORDINALS` table (line 96)

Python dicts iterate in insertion order, so the ordinal scan tries the table
entries in the listed order.  `re.search(rf"\b{word}\b", q)` for an all-word
`word` holds iff `word` is one of the maximal `\w+` tokens of `q`.
Out-of-range indexing (`matches[orig_id - 1]`) would raise in Python; it is
modelled total via `getD` and the claims carry the session invariant
`1 ≤ cid ≤ len(matches)` as a hypothesis.
-/

def ORDINALS : List (Str × Nat) :=
  [(str "first", 1), (str "1st", 1), (str "one", 1),
   (str "second", 2), (str "2nd", 2), (str "two", 2),
   (str "third", 3), (str "3rd", 3), (str "three", 3),
   (str "fourth", 4), (str "4th", 4), (str "four", 4),
   (str "fifth", 5), (str "5th", 5), (str "five", 5)]

/-- `re.search(rf"\b{w}\b", q)` for a word `w` consisting of `\w` characters. -/
def hasWordToken (w q : Str) : Bool := (wordTokens q).contains w

/-- The ordinal pass: first table entry whose word occurs in `q` and whose
rank fits `1 ≤ num ≤ sz`; a matching word with an out-of-range rank does not
return, the loop continues. -/
def ordinalScan (q : Str) (sz : Nat) : List (Str × Nat) → Option Nat
  | [] => none
  | (w, n) :: rest =>
    if hasWordToken w q then
      if 1 ≤ n ∧ n ≤ sz then some n else ordinalScan q sz rest
    else ordinalScan q sz rest

def ordinalRank (q : Str) (sz : Nat) : Option Nat := ordinalScan q sz ORDINALS

/-- `norm(x) = re.sub(r"\s+", " ", str(x or "").lower()).strip()`. -/
def normName (x : Str) : Str := stripStr (collapseWS (lowerStr x))

/-- The fuzzy-name pass: first previously chosen id whose normalized program
name has a token longer than 3 characters occurring in `q`. -/
def fuzzyScan (q : Str) (ms : List Record) : List Nat → Option (Nat × Record)
  | [] => none
  | cid :: rest =>
    let m := ms.getD (cid - 1) default
    let toks := (wordTokens (normName (program_name m))).filter (fun t => 3 < t.length)
    if toks.any (fun t => isSubstr t q) then some (cid, m)
    else fuzzyScan q ms rest

/-- `re.search(r"(tell me more|details|more info|expand|elaborate)", q)`. -/
def genericPhrases : List Str :=
  [str "tell me more", str "details", str "more info", str "expand", str "elaborate"]

def genericHit (q : Str) : Bool := genericPhrases.any (fun p => isSubstr p q)

/-- `find_followup_target(query_text, chosen_ids, matches)`. -/
def find_followup_target (query_text : Str) (chosen : List Nat)
    (ms : List Record) : Option (Nat × Record) :=
  if chosen.isEmpty || ms.isEmpty then none
  else
    let q := lowerStr query_text
    match ordinalRank q chosen.length with
    | some r =>
      let oid := chosen.getD (r - 1) 0
      some (oid, ms.getD (oid - 1) default)
    | none =>
      match fuzzyScan q ms chosen with
      | some res => some res
      | none =>
        if genericHit q then
          let cid := chosen.getD 0 0
          some (cid, ms.getD (cid - 1) default)
        else none

/-!
## Field backfill — `src/mixedup_streamlit_app /rag_core.py` lines 275-363,
with `present`/`is_missing` from `src/other/mixedup_streamlit_app /utils.py`

The canonical dataset `df_full` is a list of `Record` rows.  A CSV cell that
pandas would hold as NaN is modelled by the string it stringifies to where
the code stringifies (`astype(str)` turns NaN into `"nan"`, which both
`present` and `_norm_url`'s sentinel lists treat as missing), and by the
empty string elsewhere; every code path a claim touches treats the two
identically.
-/

def MISSING_SENTINELS : List Str :=
  [str "", str "n/a", str "na", str "null", str "nan", str "none",
   str "not specified"]

def MISSING_SUBSTRS : List Str :=
  [str "information not found", str "not available", str "no information",
   str "tbd", str "to be determined", str "unknown"]

/-- `is_missing(val)`. -/
def is_missing (v : Str) : Bool :=
  let s := stripStr v
  s.isEmpty || MISSING_SENTINELS.contains (lowerStr s)
    || MISSING_SUBSTRS.any (fun p => isSubstr p (lowerStr s))

/-- `present(val)`: the cleaned string, or `none` when missing. -/
def present (v : Str) : Option Str :=
  if is_missing v then none else some (stripStr v)

/-- `_norm_url(u) = str(u or "").strip().rstrip("/").lower()`. -/
def _norm_url (u : Str) : Str := lowerStr (rstripSlash (stripStr u))

/-- `_norm_name(d) = _program_name(d).strip().lower()`. -/
def _norm_name (d : Record) : Str := lowerStr (stripStr (programNameMix d))

/-- The `__url_norm` column of `_index_full_df`:
`astype(str).fillna("").str.strip().str.rstrip("/").str.lower()`. -/
def urlNormRow (r : Record) : Str := lowerStr (rstripSlash (stripStr r.url))

/-- The `__name_norm` column (`fuse`): first candidate field that is
`present`, stripped and lowered. -/
def fuseNameRow (r : Record) : Str :=
  match (nameCandidates r).find? (fun c => (present c).isSome) with
  | some c => lowerStr (stripStr c)
  | none => []

/-- `_match_row(item, df_indexed)`: first row whose normalized URL equals the
item's (when the item has one), else first row whose fused name equals the
item's normalized program name (when that is nonempty). -/
def _match_row (item : Record) (df : List Record) : Option Record :=
  let u := _norm_url item.url
  match (if u.isEmpty then none else df.find? (fun r => urlNormRow r == u)) with
  | some row => some row
  | none =>
    let n := _norm_name item
    if n.isEmpty then none else df.find? (fun r => fuseNameRow r == n)

def FALLBACK_FIELDS : List Field :=
  [.description, .eligibility, .procedure, .contact, .amount, .deadline,
   .location, .source, .domain, .name, .title, .program, .call, .url]

/-- One iteration of `_backfill_item`'s field loop: fill `key` from the row
when the item's value is missing and the row's is present (the raw row value
is copied, not its stripped form). -/
def bfStep (row item : Record) (k : Field) : Record :=
  if (present (getF item k)).isNone then
    if (present (getF row k)).isSome then setF item k (getF row k) else item
  else item

/-- `_backfill_item(item, row)` (`row` falsy ⇒ item returned unchanged). -/
def _backfill_item (item : Record) (row : Option Record) : Record :=
  match row with
  | none => item
  | some r => FALLBACK_FIELDS.foldl (bfStep r) item

/-- `backfill_records(records, df_full)`. -/
def backfill_records (records : List Record) (df : List Record) : List Record :=
  if records.isEmpty || df.isEmpty then records
  else records.map (fun r => _backfill_item r (_match_row r df))

/-!
## Concrete instances used by counterexamples and witnesses
-/

/-- A parse oracle under which no deadline string parses. -/
def parseNone : Str → Option Int := fun _ => none

/-- Scenario B's amount text. -/
def euroAmount : Str := str "Grant up to €120,000"

/-- A record for which all five rag_core scoring factors trigger. -/
def exAllFactors : Record :=
  { domain := str "ai", amount := str "500000", deadline_date := some 10,
    description := str "ai research lab", location := str "kaiserslautern" }

/-- A record whose only populated scoring input is Scenario B's amount. -/
def exAmountOnly : Record := { amount := euroAmount }

/-- Two records whose URLs differ only in case and a trailing slash. -/
def exUrlCase : Record := { url := str "https://X.com/a/" }

def exUrlPlain : Record := { url := str "https://x.com/a" }

/-- Records and selection for the follow-up counterexample (Scenario C):
prior selection `[3, 1, 2]` over a three-record shortlist. -/
def exShortA : Record := { name := str "Alpha" }

def exShortB : Record := { name := str "Bravo" }

def exShortC : Record := { name := str "Carbon" }

def exShortlist : List Record := [exShortA, exShortB, exShortC]

/-- A canonical-dataset row duplicated to exhibit intra-additions key
collisions: matched by the query token `alpha`. -/
def dupRow : Record :=
  { name := str "alpha", description := str "alpha fund", url := str "http://a.de" }

/-- The value of `dupRow` after keyword scoring and hybrid annotation under
`parseNone`, `now = 0`, query `"alpha"`, no need/domain/location. -/
def dupRowOut : Record :=
  { name := str "alpha", description := str "alpha fund", url := str "http://a.de",
    kw_score := 1, relevance_score := 10 }

/-- Two vector candidates with equal relevance scores (C5 witness). -/
def exSemA : Record := { name := str "sema", relevance_score := 50 }

def exSemB : Record := { name := str "semb", relevance_score := 50 }

/-- Backfill counterexample data: `bfRowA` and `bfRowB` share a normalized
URL; `bfItem` matches `bfRowB` by name on the first pass, which backfills a
URL that matches `bfRowA` (the earlier row) on the second pass. -/
def bfItem : Record := { name := str "Beta Fund" }

def bfRowA : Record :=
  { url := str "http://x.de/p/", name := str "Alpha Fund",
    description := str "Funds from row A" }

def bfRowB : Record := { url := str "http://x.de/p", name := str "Beta Fund" }

def bfDF : List Record := [bfRowA, bfRowB]

/-- Witness data for the amended backfill claim. -/
def bfWitItem : Record := { description := str "Existing text" }

def bfWitRow : Record := { description := str "Other text", contact := str "Office 12" }

/-- Shortlist of nine records for the follow-up witness. -/
def exNineMs : List Record := List.replicate 9 default

/-!
## Factor vectors for the scoring claims
-/

/-- The five factor indicators of a scoring variant. -/
abbrev Factors := Bool × Bool × Bool × Bool × Bool

/-- The factor indicators of rag_core's `compute_relevance_score`. -/
def factorsOf (row : Record) (query : Str) (funding_need : Nat)
    (target_domain user_location : Str) (now : Int) : Factors :=
  (domainFactor row.domain target_domain,
   amountFactorRag row.amount funding_need,
   deadlineFactorRag row.deadline_date now,
   keywordFactorRag row.description query,
   locationFactorRag row.location user_location)

/-- The factor indicators of scoring.py's `compute_relevance_score`. -/
def factorsOfLC (metadata : Record) (query : Str) (funding_need : Nat)
    (target_domain user_location : Str) : Factors :=
  (isSubstr (lowerStr target_domain) (lowerStr metadata.domain),
   amountFactorLC metadata.amount funding_need,
   isSubstr (str "month") (lowerStr metadata.deadline)
     || isSubstr (str "2025") metadata.deadline,
   (splitWS query).any (fun w => isSubstr (lowerStr w) (lowerStr metadata.description)),
   isSubstr (lowerStr user_location) (lowerStr metadata.location))

/-- The score determined by a factor vector (weights 40/30/20/10/10). -/
def weightSum (v : Factors) : Int :=
  ((if v.1 then 4 else 0) + (if v.2.1 then 3 else 0) + (if v.2.2.1 then 2 else 0)
    + (if v.2.2.2.1 then 1 else 0) + (if v.2.2.2.2 then 1 else 0)) * 10

/-- Pointwise order on factor vectors: `w` triggers every factor `v` does. -/
def factorsLE (v w : Factors) : Bool :=
  (!v.1 || w.1) && (!v.2.1 || w.2.1) && (!v.2.2.1 || w.2.2.1)
    && (!v.2.2.2.1 || w.2.2.2.1) && (!v.2.2.2.2 || w.2.2.2.2)

/-- The duplicated dataset row after keyword scoring (`kw_score = 1` from the
single query token `alpha`). -/
def dupKW : Record := { dupRow with kw_score := 1 }

/-- Invariant established by one backfill pass over field `k`: if the item's
value at `k` is still missing afterwards, the row's value at `k` is itself
missing, so a second pass over the same row cannot change the field. -/
def StableAt (row it : Record) (k : Field) : Prop :=
  (present (getF it k)).isNone = true → (present (getF row k)).isNone = true

/-!
## Theorems

Helper lemmas first, then one theorem per claim (with counterexamples and
witnesses where applicable).
-/

/-- The additions loop of `hybrid_boost` keeps exactly the rows whose dedupe
key is unseen and whose deadline is null or not expired, annotating each. -/
lemma hybridAdditions_eq (parse : Str → Option Int) (now : Int) (query : Str)
    (need : Nat) (dom loc : Str) (seen : List Str) (rows : List Record) :
    hybridAdditions parse now query need dom loc seen rows
      = (rows.filter (hybridKeep parse now seen)).map
          (hybridAnnotate parse now query need dom loc) := by
  induction rows with
  | nil => rfl
  | cons r rs ih =>
    simp only [hybridAdditions, List.filter_cons, ih]
    by_cases hs : _key_from_item r ∈ seen
    · simp [hybridKeep, hs]
    · cases hp : parse r.deadline with
      | none => simp [hybridKeep, hs, hp]
      | some d =>
        by_cases hd : now ≤ d
        · simp [hybridKeep, hs, hp, hd, show ¬ d < now by omega]
        · simp [hybridKeep, hs, hp, hd, show d < now by omega]

/-- Hybrid annotation does not touch the url/name/title fields, so the dedupe
key of an appended item is the key of the source row. -/
lemma key_annot (parse : Str → Option Int) (now : Int) (query : Str)
    (need : Nat) (dom loc : Str) (r : Record) :
    _key_from_item (hybridAnnotate parse now query need dom loc r) = _key_from_item r := rfl

/-- Claim C1: in `query_funding_data`, a retrieved row survives the deadline
filter iff its `days_left` is null or nonnegative; and the keyword-addition
loop of `hybrid_boost` appends exactly the unseen rows whose parsed deadline
is null or not strictly in the past (records with an expired parsed deadline
are excluded, unparseable deadlines are retained). -/
theorem c1_deadline_filtering (parse : Str → Option Int) (now : Int) (query : Str)
    (need : Nat) (dom loc : Str) (seen : List Str) (rows kwrows : List Record) (r : Record) :
    (r ∈ rows.filter keepDeadline
      ↔ r ∈ rows ∧ (r.days_left = none ∨ ∃ d, r.days_left = some d ∧ 0 ≤ d))
    ∧ hybridAdditions parse now query need dom loc seen kwrows
        = (kwrows.filter (hybridKeep parse now seen)).map
            (hybridAnnotate parse now query need dom loc)
    ∧ (∀ x : Record, hybridKeep parse now seen x = true ↔
        (_key_from_item x ∉ seen
          ∧ (parse x.deadline = none ∨ ∃ d, parse x.deadline = some d ∧ 0 ≤ d - now))) := by
  refine ⟨?_, hybridAdditions_eq parse now query need dom loc seen kwrows, ?_⟩
  · rw [List.mem_filter]
    apply and_congr_right
    intro _
    cases h : r.days_left with
    | none => simp [keepDeadline, h]
    | some d => simp [keepDeadline, h]
  · intro x
    cases hp : parse x.deadline with
    | none => simp [hybridKeep, hp]
    | some d =>
      simp only [hybridKeep, hp, Bool.and_eq_true]
      constructor
      · rintro ⟨h1, h2⟩
        refine ⟨by simpa using h1, Or.inr ⟨d, rfl, by simpa using h2⟩⟩
      · rintro ⟨h1, h2⟩
        refine ⟨by simpa using h1, ?_⟩
        rcases h2 with h2 | ⟨d2, hd2, hle⟩
        · exact absurd h2 (by simp)
        · cases hd2
          simpa using (by omega : now ≤ d)

/-- Claim C3 counterexample: a record triggering all five factors scores
40 + 30 + 20 + 10 + 10 = 110, outside the claimed range [0, 100]. -/
theorem c3_counterexample :
    compute_relevance_score exAllFactors (str "ai") 100000 (str "ai") (str "kaiserslautern") 0 = 110
    ∧ ¬ (compute_relevance_score exAllFactors (str "ai") 100000 (str "ai") (str "kaiserslautern") 0 ≤ 100) := by
  decide

/-- Claim C3 (amended): both scoring variants return an integer in [0, 110]
(not [0, 100]); the rag_core score equals the weighted sum of its five factor
indicators, and that weighted sum is monotone non-decreasing in the set of
triggered factors. -/
theorem c3_amended (row : Record) (query : Str) (need : Nat) (dom loc : Str)
    (now : Int) (v w : Factors) (hvw : factorsLE v w = true) :
    (0 ≤ compute_relevance_score row query need dom loc now
      ∧ compute_relevance_score row query need dom loc now ≤ 110)
    ∧ compute_relevance_score row query need dom loc now
        = weightSum (factorsOf row query need dom loc now)
    ∧ weightSum v ≤ weightSum w
    ∧ (0 ≤ compute_relevance_score_lc row query need dom loc
      ∧ compute_relevance_score_lc row query need dom loc ≤ 110) := by
  have hb : ∀ u : Factors, 0 ≤ weightSum u ∧ weightSum u ≤ 110 := by decide
  have hm : ∀ u1 u2 : Factors, factorsLE u1 u2 = true → weightSum u1 ≤ weightSum u2 := by decide
  exact ⟨hb (factorsOf row query need dom loc now), rfl, hm v w hvw,
    hb (factorsOfLC row query need dom loc)⟩

theorem c3_amended_witness :
    factorsLE (false, false, false, false, false) (true, true, true, true, true) = true
    ∧ ((0 ≤ compute_relevance_score exAllFactors (str "q") 5 (str "d") (str "l") 0
        ∧ compute_relevance_score exAllFactors (str "q") 5 (str "d") (str "l") 0 ≤ 110)
      ∧ compute_relevance_score exAllFactors (str "q") 5 (str "d") (str "l") 0
          = weightSum (factorsOf exAllFactors (str "q") 5 (str "d") (str "l") 0)
      ∧ weightSum (false, false, false, false, false) ≤ weightSum (true, true, true, true, true)
      ∧ (0 ≤ compute_relevance_score_lc exAllFactors (str "q") 5 (str "d") (str "l")
        ∧ compute_relevance_score_lc exAllFactors (str "q") 5 (str "d") (str "l") ≤ 110)) :=
  ⟨by decide, c3_amended exAllFactors (str "q") 5 (str "d") (str "l") 0 _ _ (by decide)⟩

/-- Claim C4 counterexample: with `amount = "Grant up to €120,000"` the
rag_core amount factor does NOT trigger at `funding_need = 100000` (the last
digit run of the amount is `"000"`, parsed as 0), contradicting Scenario B;
a record whose only populated field is that amount scores 0, not 30. -/
theorem c4_counterexample :
    amountFactorRag euroAmount 100000 = false
    ∧ compute_relevance_score exAmountOnly [] 100000 [] [] 0 = 0 := by decide

/-- Claim C4 (amended): under rag_core's last-digit-run extraction
`"Grant up to €120,000"` parses to 0, so the +30 factor triggers at neither
100000 nor 150000; under scoring.py's strip-all-non-digits extraction it
parses to 120000 and triggers at 100000 but not at 150000; an amount with no
digits fails to parse and the factor simply does not trigger in either
variant. -/
theorem c4_amended :
    amountValRag euroAmount = 0
    ∧ amountFactorRag euroAmount 100000 = false
    ∧ amountFactorRag euroAmount 150000 = false
    ∧ amountValLC euroAmount = some 120000
    ∧ amountFactorLC euroAmount 100000 = true
    ∧ amountFactorLC euroAmount 150000 = false
    ∧ amountValRag (str "no digits here") = 0
    ∧ amountFactorRag (str "no digits here") 100000 = false
    ∧ amountValLC (str "no digits here") = none
    ∧ amountFactorLC (str "no digits here") 100000 = false := by decide

lemma scoreLE_trans : ∀ x y z : Record, scoreLE x y → scoreLE y z → scoreLE x z := by
  intro x y z h1 h2
  simp only [scoreLE, decide_eq_true_eq] at *
  omega

lemma scoreLE_total : ∀ x y : Record, scoreLE x y || scoreLE y x := by
  intro x y
  simp only [scoreLE, Bool.or_eq_true, decide_eq_true_eq]
  omega

/-- Claim C5: the hybrid merger returns at most `want` entries, sorted by
relevance score descending, and any two entries with equal scores keep, in
the sorted result, their relative order from the concatenation
`vector_candidates ++ additions` (stability of the sort); the output is
exactly the `want`-truncation of that stable descending sort. -/
theorem c5_hybrid_sorted_bounded_stable (parse : Str → Option Int) (now : Int)
    (sem kwrows : List Record) (query : Str) (need : Nat) (dom loc : Str)
    (want : Nat) (a b : Record)
    (hab : a.relevance_score = b.relevance_score)
    (hsub : List.Sublist [a, b]
      (sem ++ hybridAdditions parse now query need dom loc (seenKeys sem) kwrows)) :
    (hybrid_merge parse now sem kwrows query need dom loc want).length ≤ want
    ∧ (hybrid_merge parse now sem kwrows query need dom loc want).Pairwise
        (fun x y => y.relevance_score ≤ x.relevance_score)
    ∧ List.Sublist [a, b] ((sem ++ hybridAdditions parse now query need dom loc (seenKeys sem) kwrows).mergeSort scoreLE)
    ∧ hybrid_merge parse now sem kwrows query need dom loc want
        = ((sem ++ hybridAdditions parse now query need dom loc (seenKeys sem) kwrows).mergeSort
            scoreLE).take want := by
  refine ⟨List.length_take_le want _, ?_, ?_, rfl⟩
  · have hs := List.sorted_mergeSort scoreLE_trans scoreLE_total
      (sem ++ hybridAdditions parse now query need dom loc (seenKeys sem) kwrows)
    have ht := hs.sublist (List.take_sublist want _)
    exact ht.imp (fun h => by simpa [scoreLE] using h)
  · exact List.pair_sublist_mergeSort scoreLE_trans scoreLE_total
      (by simp [scoreLE, hab]) hsub

theorem c5_witness :
    exSemA.relevance_score = exSemB.relevance_score
    ∧ (hybrid_merge parseNone 0 [exSemA, exSemB] [] [] 0 [] [] 3).length ≤ 3
    ∧ (hybrid_merge parseNone 0 [exSemA, exSemB] [] [] 0 [] [] 3).Pairwise
        (fun x y => y.relevance_score ≤ x.relevance_score)
    ∧ List.Sublist [exSemA, exSemB] (([exSemA, exSemB]
        ++ hybridAdditions parseNone 0 [] 0 [] [] (seenKeys [exSemA, exSemB]) []).mergeSort scoreLE) := by
  have hsub : List.Sublist [exSemA, exSemB] ([exSemA, exSemB]
      ++ hybridAdditions parseNone 0 [] 0 [] [] (seenKeys [exSemA, exSemB]) []) := by
    simp [hybridAdditions]
  have h := c5_hybrid_sorted_bounded_stable parseNone 0 [exSemA, exSemB] [] [] 0 [] [] 3
    exSemA exSemB rfl hsub
  exact ⟨rfl, h.1, h.2.1, h.2.2.1⟩

/-- Claim C6 counterexample: the dedupe keys of two records whose URLs differ
only in letter case and a trailing slash are different, and the second record
is appended to `additions` (length 1) even though the first is among the
vector candidates — the claimed case/slash-insensitive equality fails. -/
theorem c6_counterexample :
    _key_from_item exUrlCase ≠ _key_from_item exUrlPlain
    ∧ (hybridAdditions parseNone 0 [] 0 [] [] (seenKeys [exUrlCase]) [exUrlPlain]).length = 1 := by
  decide

lemma key_of_url (it : Record) (h : stripStr it.url ≠ []) :
    _key_from_item it = stripStr it.url := by
  unfold _key_from_item
  cases hc : stripStr it.url with
  | nil => exact absurd hc h
  | cons a t => simp

/-- Claim C6 (amended): for records with nonempty (whitespace-stripped) URLs
the dedupe key is the raw stripped URL, so two keys are equal iff the
stripped URLs are exactly equal — equality is case- and
trailing-slash-SENSITIVE, not insensitive as claimed. -/
theorem c6_amended (it1 it2 : Record)
    (h1 : stripStr it1.url ≠ []) (h2 : stripStr it2.url ≠ []) :
    (_key_from_item it1 = _key_from_item it2 ↔ stripStr it1.url = stripStr it2.url) := by
  rw [key_of_url it1 h1, key_of_url it2 h2]

theorem c6_amended_witness :
    stripStr exUrlCase.url ≠ [] ∧ stripStr exUrlPlain.url ≠ []
    ∧ (_key_from_item exUrlCase = _key_from_item exUrlPlain
        ↔ stripStr exUrlCase.url = stripStr exUrlPlain.url) :=
  ⟨by decide, by decide, c6_amended exUrlCase exUrlPlain (by decide) (by decide)⟩

lemma pickStep_ids_mono (n : Nat) (acc : List Nat × List (Nat × Str)) (p : RawPick)
    (h : acc.1 ≠ []) : (pickStep n acc p).1 ≠ [] := by
  unfold pickStep
  cases p.pid with
  | none => exact h
  | some v =>
    by_cases hr : 1 ≤ v ∧ v ≤ (n : Int)
    · simp [hr]
    · simp [hr, h]

lemma foldl_pickStep_ids_mono (n : Nat) :
    ∀ (picks : List RawPick) (acc : List Nat × List (Nat × Str)), acc.1 ≠ [] →
      (picks.foldl (pickStep n) acc).1 ≠ [] := by
  intro picks
  induction picks with
  | nil => intro acc h; exact h
  | cons p ps ih => intro acc h; exact ih _ (pickStep_ids_mono n acc p h)

lemma foldl_pickStep_reasons_of_empty (n : Nat) :
    ∀ (picks : List RawPick) (rs : List (Nat × Str)),
      (picks.foldl (pickStep n) ([], rs)).1 = [] →
      (picks.foldl (pickStep n) ([], rs)).2 = rs := by
  intro picks
  induction picks with
  | nil => intro rs _; rfl
  | cons p ps ih =>
    intro rs h
    simp only [List.foldl_cons] at h ⊢
    cases hp : p.pid with
    | none =>
      rw [show pickStep n ([], rs) p = ([], rs) from by simp [pickStep, hp]] at h ⊢
      exact ih rs h
    | some v =>
      by_cases hr : 1 ≤ v ∧ v ≤ (n : Int)
      · exfalso
        apply foldl_pickStep_ids_mono n ps (pickStep n ([], rs) p) _ h
        simp [pickStep, hp, hr]
      · rw [show pickStep n ([], rs) p = ([], rs) from by simp [pickStep, hp, hr]] at h ⊢
        exact ih rs h

lemma foldl_pickStep_bounds (n : Nat) :
    ∀ (picks : List RawPick) (acc : List Nat × List (Nat × Str)),
      (∀ i ∈ acc.1, 1 ≤ i ∧ i ≤ n) →
      ∀ i ∈ (picks.foldl (pickStep n) acc).1, 1 ≤ i ∧ i ≤ n := by
  intro picks
  induction picks with
  | nil => intro acc h; exact h
  | cons p ps ih =>
    intro acc hacc
    apply ih
    unfold pickStep
    cases hp : p.pid with
    | none => exact hacc
    | some v =>
      by_cases hr : 1 ≤ v ∧ v ≤ (n : Int)
      · simp only [hr, if_pos]
        intro i hi
        rcases List.mem_append.mp hi with hold | hnew
        · exact hacc i hold
        · have : i = v.toNat := by simpa using hnew
          subst this
          omega
      · simp only [hr, if_neg, not_false_iff]
        exact hacc

/-- Claim C2 counterexample: with a model response repeating a valid id the
validation keeps the duplicate — `ids = [1, 1]` — so duplicates are NOT
discarded as claimed. -/
theorem c2_counterexample :
    (llm_select_top (.ok [⟨some 1, none⟩, ⟨some 1, none⟩]) 2 3).1 = [1, 1]
    ∧ ¬ (llm_select_top (.ok [⟨some 1, none⟩, ⟨some 1, none⟩]) 2 3).1.Nodup := by
  decide

/-- Claim C2 (amended): every id returned by `llm_select_top` lies within
`[1, len(shortlist)]` and the id list is capped at `wanted`; duplicate ids
returned by the model are retained, not discarded. -/
theorem c2_amended (resp : Except Unit (List RawPick)) (n wanted : Nat) (i : Nat)
    (hi : i ∈ (llm_select_top resp n wanted).1) :
    (1 ≤ i ∧ i ≤ n) ∧ (llm_select_top resp n wanted).1.length ≤ wanted := by
  have hfb1 : ∀ j ∈ selectFallback n wanted, 1 ≤ j ∧ j ≤ n := by
    intro j hj
    have := List.mem_range'_1.mp (by simpa [selectFallback] using hj)
    omega
  have hfb2 : (selectFallback n wanted).length ≤ wanted := by
    simp [selectFallback]
  cases resp with
  | error e =>
    simp only [llm_select_top] at hi ⊢
    exact ⟨hfb1 i hi, hfb2⟩
  | ok picks =>
    simp only [llm_select_top] at hi ⊢
    by_cases hemp : ((collectPicks n picks).1.take wanted).isEmpty
    · rw [if_pos hemp] at hi ⊢
      exact ⟨hfb1 i hi, hfb2⟩
    · rw [if_neg hemp] at hi ⊢
      refine ⟨?_, List.length_take_le wanted _⟩
      exact foldl_pickStep_bounds n picks ([], []) (by simp) i (List.mem_of_mem_take hi)

theorem c2_amended_witness :
    2 ∈ (llm_select_top (.ok [⟨some 2, some (str "ok")⟩]) 3 1).1
    ∧ (1 ≤ 2 ∧ 2 ≤ 3)
    ∧ (llm_select_top (.ok [⟨some 2, some (str "ok")⟩]) 3 1).1.length ≤ 1 :=
  ⟨by decide, (c2_amended (.ok [⟨some 2, some (str "ok")⟩]) 3 1 2 (by decide)).1,
    (c2_amended (.ok [⟨some 2, some (str "ok")⟩]) 3 1 2 (by decide)).2⟩

/-- Claim C7: on a generative failure — a call/parse error, or a response
yielding no valid id — the selector returns exactly the positional fallback
ids `1 .. min(wanted, len(shortlist))` with an empty reasons map, and on any
error the enricher returns an empty brief and empty next_steps for every
requested id.  Both embedded functions are total, modelling that neither
code path raises. -/
theorem c7_generative_failure_fallback (n wanted : Nat) (chosen : List Nat)
    (respS : Except Unit (List RawPick)) (respE : Except Unit (List RawEnrichItem)) :
    (match respS with
     | .error _ => llm_select_top respS n wanted = (selectFallback n wanted, [])
     | .ok picks => (collectPicks n picks).1 = [] →
         llm_select_top respS n wanted = (selectFallback n wanted, []))
    ∧ (respE = .error () →
        llm_enrich_picks respE chosen
          = chosen.map (fun cid => (cid, (⟨[], []⟩ : EnrichEntry)))) := by
  constructor
  · cases respS with
    | error e => rfl
    | ok picks =>
      intro hempty
      have h2 : (collectPicks n picks).2 = [] :=
        foldl_pickStep_reasons_of_empty n picks [] hempty
      simp only [llm_select_top]
      rw [hempty, h2]
      simp
  · intro he
    subst he
    rfl

theorem c7_witness :
    llm_select_top (.error ()) 3 2 = (selectFallback 3 2, [])
    ∧ llm_select_top (.ok [⟨some 7, some (str "x")⟩]) 3 2 = (selectFallback 3 2, [])
    ∧ llm_enrich_picks (.error ()) [1, 2]
        = [1, 2].map (fun cid => (cid, (⟨[], []⟩ : EnrichEntry))) :=
  ⟨(c7_generative_failure_fallback 3 2 [1, 2] (.error ()) (.error ())).1,
   (c7_generative_failure_fallback 3 2 [1, 2] (.ok [⟨some 7, some (str "x")⟩]) (.error ())).1
     (by decide),
   (c7_generative_failure_fallback 3 2 [1, 2] (.error ()) (.error ())).2 rfl⟩

/-- Claim C8 counterexample (Scenario C): after a selection `[3, 1, 2]`, the
utterance "tell me more about the second one" resolves to the FIRST pick
(id 3) — the ordinal word "one" precedes "second" in the `ORDINALS` table —
not to the id at position 2 of the prior selection (id 1) as claimed. -/
theorem c8_counterexample :
    find_followup_target (str "tell me more about the second one") [3, 1, 2] exShortlist
      = some (3, exShortC)
    ∧ find_followup_target (str "tell me more about the second one") [3, 1, 2] exShortlist
      ≠ some (1, exShortA) := by decide

/-- Claim C8 (amended): when the ordinal pass fires with rank `r` — the
first `ORDINALS` entry in table order whose word occurs in the lowered
utterance and whose rank is within the selection size — the resolver returns
the id at position `r` of the prior selection (`chosen_ids[r-1]`) with the
corresponding shortlist record, regardless of the later fuzzy-name and
generic passes; when no ordinal fires, no fuzzy token matches, and no generic
phrase occurs, it returns no target. -/
theorem c8_amended (q0 : Str) (chosen : List Nat) (ms : List Record)
    (h1 : chosen ≠ []) (h2 : ms ≠ []) :
    (match ordinalRank (lowerStr q0) chosen.length with
     | some r => find_followup_target q0 chosen ms
         = some (chosen.getD (r - 1) 0, ms.getD (chosen.getD (r - 1) 0 - 1) default)
     | none =>
       fuzzyScan (lowerStr q0) ms chosen = none →
       genericHit (lowerStr q0) = false →
       find_followup_target q0 chosen ms = none) := by
  have hc : chosen.isEmpty = false := by
    cases chosen with
    | nil => exact absurd rfl h1
    | cons a l => rfl
  have hm : ms.isEmpty = false := by
    cases ms with
    | nil => exact absurd rfl h2
    | cons a l => rfl
  cases hor : ordinalRank (lowerStr q0) chosen.length with
  | some r =>
    simp [find_followup_target, hc, hm, hor]
  | none =>
    intro hf hg
    simp [find_followup_target, hc, hm, hor, hf, hg]

theorem c8_amended_witness :
    find_followup_target (str "show the third") [5, 9, 7] exNineMs
      = some (7, exNineMs.getD 6 default)
    ∧ find_followup_target (str "zzz qqq") [5, 9, 7] exNineMs = none := by
  constructor
  · exact c8_amended (str "show the third") [5, 9, 7] exNineMs (by decide) (by decide)
  · exact c8_amended (str "zzz qqq") [5, 9, 7] exNineMs (by decide) (by decide)
      (by decide) (by decide)

lemma getF_setF_same (it : Record) (k : Field) (v : Str) : getF (setF it k v) k = v := by
  cases k <;> rfl

lemma getF_setF_ne (it : Record) (k k2 : Field) (v : Str) (h : k ≠ k2) :
    getF (setF it k v) k2 = getF it k2 := by
  cases k <;> cases k2 <;> first | exact absurd rfl h | rfl

lemma bfStep_self_stable (row it : Record) (k : Field) : StableAt row (bfStep row it k) k := by
  unfold StableAt bfStep
  split
  next h1 =>
    split
    next h2 =>
      intro hcon
      rw [getF_setF_same] at hcon
      simp_all
    next h2 =>
      intro _
      simp_all
  next h1 =>
    intro hcon
    exact absurd hcon h1

lemma bfStep_keep_stable (row it : Record) (k k2 : Field) (h : StableAt row it k2) :
    StableAt row (bfStep row it k) k2 := by
  by_cases hk : k = k2
  · subst hk
    exact bfStep_self_stable row it k
  · unfold StableAt bfStep at *
    split
    next h1 =>
      split
      next h2 =>
        rw [getF_setF_ne it k k2 _ hk]
        exact h
      next h2 => exact h
    next h1 => exact h

lemma foldl_keep_stable (row : Record) : ∀ (ks : List Field) (it : Record) (k2 : Field),
    StableAt row it k2 → StableAt row (ks.foldl (bfStep row) it) k2 := by
  intro ks
  induction ks with
  | nil => intro it k2 h; exact h
  | cons k ks ih => intro it k2 h; exact ih _ _ (bfStep_keep_stable row it k k2 h)

lemma foldl_stable_mem (row : Record) : ∀ (ks : List Field) (it : Record) (k : Field),
    k ∈ ks → StableAt row (ks.foldl (bfStep row) it) k := by
  intro ks
  induction ks with
  | nil => intro it k h; cases h
  | cons k0 ks ih =>
    intro it k h
    rcases List.mem_cons.mp h with rfl | hmem
    · exact foldl_keep_stable row ks _ k (bfStep_self_stable row it k)
    · exact ih _ k hmem

lemma bfStep_id_of_stable (row it : Record) (k : Field) (h : StableAt row it k) :
    bfStep row it k = it := by
  unfold StableAt at h
  unfold bfStep
  split
  next h1 =>
    have h2 := h h1
    rw [if_neg]
    simp_all
  next => rfl

lemma foldl_id_of_stable (row : Record) : ∀ (ks : List Field) (it : Record),
    (∀ k ∈ ks, StableAt row it k) → ks.foldl (bfStep row) it = it := by
  intro ks
  induction ks with
  | nil => intro it _; rfl
  | cons k0 ks ih =>
    intro it h
    rw [List.foldl_cons, bfStep_id_of_stable row it k0 (h k0 (List.mem_cons_self _ _))]
    exact ih it (fun k hk => h k (List.mem_cons_of_mem _ hk))

lemma bfStep_getF_of_present (row it : Record) (k k2 : Field)
    (h : (present (getF it k2)).isSome = true) :
    getF (bfStep row it k) k2 = getF it k2 := by
  unfold bfStep
  split
  next h1 =>
    split
    next h2 =>
      have hk : k ≠ k2 := by
        intro he
        subst he
        simp_all
      exact getF_setF_ne it k k2 _ hk
    next => rfl
  next => rfl

lemma foldl_getF_of_present (row : Record) : ∀ (ks : List Field) (it : Record) (k2 : Field),
    (present (getF it k2)).isSome = true →
    getF (ks.foldl (bfStep row) it) k2 = getF it k2 := by
  intro ks
  induction ks with
  | nil => intro it k2 _; rfl
  | cons k0 ks ih =>
    intro it k2 h
    rw [List.foldl_cons]
    have he := bfStep_getF_of_present row it k0 k2 h
    rw [ih _ k2 (by rw [he]; exact h), he]

/-- Claim C9 counterexample: `backfill_records` is not idempotent.  The item
(name "Beta Fund", no URL) matches row B by name on the first pass, which
backfills row B's URL; on the second pass that URL matches row A — an earlier
row sharing the same normalized URL — whose description is then copied, so
applying backfill twice differs from applying it once. -/
theorem c9_counterexample :
    backfill_records (backfill_records [bfItem] bfDF) bfDF ≠ backfill_records [bfItem] bfDF := by
  decide

/-- Claim C9 (amended): `_backfill_item` against a FIXED matched row is
idempotent, never overwrites an attribute already present on the record, and
returns the record unchanged when there is no matching row; full
`backfill_records` idempotence fails because a backfilled URL can re-match a
different row on a second pass. -/
theorem c9_amended (item row : Record) (k : Field)
    (h : (present (getF item k)).isSome = true) :
    _backfill_item (_backfill_item item (some row)) (some row) = _backfill_item item (some row)
    ∧ getF (_backfill_item item (some row)) k = getF item k
    ∧ _backfill_item item none = item := by
  have hb : ∀ it : Record, _backfill_item it (some row) = FALLBACK_FIELDS.foldl (bfStep row) it :=
    fun _ => rfl
  refine ⟨?_, ?_, rfl⟩
  · rw [hb, hb]
    exact foldl_id_of_stable row FALLBACK_FIELDS _
      (fun k2 hk2 => foldl_stable_mem row FALLBACK_FIELDS item k2 hk2)
  · rw [hb]
    exact foldl_getF_of_present row FALLBACK_FIELDS item k h

theorem c9_amended_witness :
    (present (getF bfWitItem .description)).isSome = true
    ∧ (_backfill_item (_backfill_item bfWitItem (some bfWitRow)) (some bfWitRow)
        = _backfill_item bfWitItem (some bfWitRow)
      ∧ getF (_backfill_item bfWitItem (some bfWitRow)) .description
          = getF bfWitItem .description
      ∧ _backfill_item bfWitItem none = bfWitItem) :=
  ⟨by decide, c9_amended bfWitItem bfWitRow .description (by decide)⟩

/-- Claim C10: the `seen` set of `hybrid_boost` is built from the vector
candidates only and never extended while appending keyword additions, so
every addition's dedupe key is guaranteed absent from the vector candidates'
keys, but two keyword candidates sharing one key can both be appended: on a
dataset holding the same row twice, the full `hybrid_boost` output contains
the (identical, same-key) record twice. -/
theorem c10_intra_addition_dups (parse : Str → Option Int) (now : Int) (query : Str)
    (need : Nat) (dom loc : Str) (sem kwrows : List Record) (x : Record)
    (hx : x ∈ hybridAdditions parse now query need dom loc (seenKeys sem) kwrows) :
    _key_from_item x ∉ seenKeys sem
    ∧ (hybrid_boost parseNone 0 [] [dupRow, dupRow] (str "alpha") 0 [] [] 8).count dupRowOut = 2 := by
  constructor
  · rw [hybridAdditions_eq] at hx
    obtain ⟨r, hr, rfl⟩ := List.mem_map.mp hx
    have hk := (List.mem_filter.mp hr).2
    rw [key_annot]
    simp only [hybridKeep, Bool.and_eq_true] at hk
    intro hmem
    exact absurd hmem (by simpa using hk.1)
  · have hkw : keyword_candidates [dupRow, dupRow] (str "alpha") [] 50 = [dupKW, dupKW] := by
      unfold keyword_candidates
      rw [if_neg (by decide)]
      dsimp only
      rw [List.mergeSort_of_sorted]
      · decide
      · decide
    unfold hybrid_boost
    rw [hkw]
    unfold hybrid_merge
    dsimp only
    rw [List.mergeSort_of_sorted]
    · decide
    · decide

theorem c10_witness :
    _key_from_item dupRowOut ∉ seenKeys []
    ∧ (hybrid_boost parseNone 0 [] [dupRow, dupRow] (str "alpha") 0 [] [] 8).count dupRowOut = 2 :=
  c10_intra_addition_dups parseNone 0 (str "alpha") 0 [] [] [] [dupKW] dupRowOut (by decide)

end AIFunding
